import Mathlib

/-!
Verification of the Laplace-approximation library (`laplace/baselaplace.py`)
against its natural-language specification.

The Python classes are shallowly embedded: tensors become `List ℚ` /
`List (List ℚ)` or `Fin`-indexed functions, Python exceptions become an
explicit `PyErr` value (`Except` results, or a `state × Option PyErr` pair
when the mutations performed before a `raise` matter), and external
collaborators (the curvature backend, `torch` numerical kernels) become
explicit function parameters.  Definitions mirror the source line by line;
spec-side formulations are clearly named `spec_...`.
-/

namespace LaplaceProof

/-- Python exception kinds raised by `baselaplace.py`. -/
inductive PyErr
  | valueError
  | attributeError
  | runtimeError
  | indexError
  deriving DecidableEq, Repr

/-- Likelihood tag of a `BaseLaplace` instance (`'classification'`,
`'regression'`, `'reward_modeling'`). -/
inductive Likelihood
  | classification
  | regression
  | rewardModeling
  deriving DecidableEq, Repr

/-- A scalar-or-1-D-tensor argument, as accepted by the `prior_precision`,
`prior_mean` and `sigma_noise` property setters (the 0-dim tensor case is
identified with the scalar case: both are reshaped to a singleton). -/
inductive TensorArg
  | scalar (x : ℚ)
  | vec (v : List ℚ)
  deriving DecidableEq, Repr

/-! ## Claim C8 : `LowRankLaplace.fit` with `override=False`

`LowRankLaplace.fit` raises `ValueError('LowRank LA does not support
updating.')` as its very first statement when `override` is false, so no
attribute of the instance is mutated.  The backend call
`backend.eig_lowrank` is an external collaborator and enters the model as
the function parameter `eig`. -/

/-- A training-data loader: a list of batches plus `len(loader.dataset)`. -/
structure Loader (β : Type) where
  batches : List β
  dataset_size : ℕ

/-- State of a `LowRankLaplace` instance: the accumulator `H` is `None`
until `fit` succeeds, then a pair (eigenvectors, eigenvalues). -/
structure LowRankState where
  H : Option (List (List ℚ) × List ℚ)
  mean : List ℚ
  loss : ℚ
  n_data : ℕ
  n_outputs : ℕ
  deriving DecidableEq, Repr

/-- `LowRankLaplace.fit(train_loader, override)`.  The result is the raised
exception (if any) together with the instance state after the call;
`params_vec` stands for `parameters_to_vector(self.model.parameters())`,
`probe_out_dim` for the output dimension discovered by probing the model on
the first batch, and `eig` for `self.backend.eig_lowrank`. -/
def lowRankFit {β : Type} (params_vec : List ℚ) (probe_out_dim : ℕ)
    (eig : Loader β → List (List ℚ) × List ℚ × ℚ)
    (loader : Loader β) (override : Bool) (st : LowRankState) :
    Option PyErr × LowRankState :=
  if !override then
    -- `raise ValueError('LowRank LA does not support updating.')`
    (some .valueError, st)
  else
    let (vecs, rest) := eig loader
    let (vals, lossv) := rest
    (none,
      { st with
          mean := params_vec
          n_outputs := probe_out_dim
          H := some (vecs, vals)
          loss := lossv
          n_data := loader.dataset_size })

/-! ## Claim C7 : parameter mutation during `pred_type='nn'` prediction

`_nn_predictive_samples` and `_nn_predictive_classification` both loop over
posterior samples, install each into the live model with
`vector_to_parameters(sample, self.params)`, run a forward pass, and after
the loop restore the MAP vector once with
`vector_to_parameters(self.mean, self.params)`.  We record the sequence of
parameter writes and forward passes performed on the shared model as an
event trace derived from the source statement order, and prove the claimed
frame properties of that trace. -/

/-- An effect on the wrapped model during nn-predictive sampling:
a `vector_to_parameters` write, or a forward pass `self.model(X)`. -/
inductive NNEvent
  | setParams (v : List ℚ)
  | forwardPass
  deriving DecidableEq, Repr

/-- Event trace of `_nn_predictive_samples`, in source statement order:
for each sample `s` drawn, `vector_to_parameters(s, params)` then a forward
pass; after the loop, a single `vector_to_parameters(mean, params)`. -/
def nnPredictiveSamplesTrace (samples : List (List ℚ)) (mean : List ℚ) :
    List NNEvent :=
  (samples.map fun s => [NNEvent.setParams s, NNEvent.forwardPass]).flatten
    ++ [NNEvent.setParams mean]

/-- Event trace of `_nn_predictive_classification`: identical mutation
pattern (install sample, forward pass, once per sample; restore the mean
once after the loop). -/
def nnPredictiveClassificationTrace (samples : List (List ℚ))
    (mean : List ℚ) : List NNEvent :=
  (samples.map fun s => [NNEvent.setParams s, NNEvent.forwardPass]).flatten
    ++ [NNEvent.setParams mean]

/-- The model parameters in effect at each forward pass when replaying a
trace from initial parameters `cur`. -/
def paramsAtForwards (cur : List ℚ) : List NNEvent → List (List ℚ)
  | [] => []
  | NNEvent.setParams v :: es => paramsAtForwards v es
  | NNEvent.forwardPass :: es => cur :: paramsAtForwards cur es

/-- The model parameters after replaying a whole trace. -/
def finalParams (cur : List ℚ) : List NNEvent → List ℚ
  | [] => cur
  | NNEvent.setParams v :: es => finalParams v es
  | NNEvent.forwardPass :: es => finalParams cur es

/-- The payloads of all parameter writes in a trace, in order. -/
def setPayloads : List NNEvent → List (List ℚ)
  | [] => []
  | NNEvent.setParams v :: es => v :: setPayloads es
  | NNEvent.forwardPass :: es => setPayloads es

/-! ## Claim C6 : joint vs. marginal GLM predictive

`FullLaplace.functional_variance` is
`einsum('ncp,pq,nkq->nck', Js, posterior_covariance, Js)`;
`FullLaplace.functional_covariance` first reshapes `Js` from
`(batch, outputs, params)` to `(batch*outputs, params)` (row `i` of the
reshaped tensor is `Js[i / outputs][i % outputs]`, torch row-major reshape)
and computes `einsum('np,pq,mq->nm', ...)`.  `DiagLaplace` does the same
with the diagonal `posterior_variance` vector.
`_glm_predictive_distribution` with `joint=True` flattens `f_mu` from
`(batch, outputs)` to `(batch*outputs,)`.  The posterior covariance
(resp. variance) enters as an explicit argument `S` (resp. `v`), exactly as
`self.posterior_covariance` enters the einsum in the source. -/

/-- Row index of the torch row-major reshape `(b, o) → (b*o,)`. -/
def rowIdx {b o : ℕ} (i : Fin (b * o)) : Fin b :=
  ⟨i.val / o, by
    have h1 : 0 < b * o := Nat.lt_of_le_of_lt (Nat.zero_le _) i.isLt
    have ho : 0 < o := by
      rcases Nat.eq_zero_or_pos o with h | h
      · subst h; simp at h1
      · exact h
    exact (Nat.div_lt_iff_lt_mul ho).mpr (by
      have := i.isLt
      calc i.val < b * o := this
        _ = b * o := rfl)⟩

/-- Column index of the torch row-major reshape `(b, o) → (b*o,)`. -/
def colIdx {b o : ℕ} (i : Fin (b * o)) : Fin o :=
  ⟨i.val % o, by
    have h1 : 0 < b * o := Nat.lt_of_le_of_lt (Nat.zero_le _) i.isLt
    have ho : 0 < o := by
      rcases Nat.eq_zero_or_pos o with h | h
      · subst h; simp at h1
      · exact h
    exact Nat.mod_lt _ ho⟩

/-- Flat index `n * o + c` of entry `(n, c)` under torch row-major reshape. -/
def flatIdx {b o : ℕ} (n : Fin b) (c : Fin o) : Fin (b * o) :=
  ⟨n.val * o + c.val, by
    calc n.val * o + c.val < n.val * o + o := by
          exact Nat.add_lt_add_left c.isLt _
      _ = (n.val + 1) * o := by ring
      _ ≤ b * o := Nat.mul_le_mul_right o (Nat.succ_le_of_lt n.isLt)⟩

/-- `FullLaplace.functional_variance(Js)`:
`einsum('ncp,pq,nkq->nck', Js, posterior_covariance, Js)`. -/
def functional_variance_full {b o p : ℕ} (S : Fin p → Fin p → ℚ)
    (Js : Fin b → Fin o → Fin p → ℚ) : Fin b → Fin o → Fin o → ℚ :=
  fun n c k => ∑ pi : Fin p, ∑ qi : Fin p, Js n c pi * S pi qi * Js n k qi

/-- Torch row-major reshape of `Js` from `(b, o, p)` to `(b*o, p)`. -/
def reshapeJs {b o p : ℕ} (Js : Fin b → Fin o → Fin p → ℚ) :
    Fin (b * o) → Fin p → ℚ :=
  fun i => Js (rowIdx i) (colIdx i)

/-- `FullLaplace.functional_covariance(Js)`: reshape then
`einsum('np,pq,mq->nm', Js, posterior_covariance, Js)`. -/
def functional_covariance_full {b o p : ℕ} (S : Fin p → Fin p → ℚ)
    (Js : Fin b → Fin o → Fin p → ℚ) : Fin (b * o) → Fin (b * o) → ℚ :=
  fun i j => ∑ pi : Fin p, ∑ qi : Fin p,
    reshapeJs Js i pi * S pi qi * reshapeJs Js j qi

/-- `DiagLaplace.functional_variance(Js)`:
`einsum('ncp,p,nkp->nck', Js, posterior_variance, Js)`. -/
def functional_variance_diag {b o p : ℕ} (v : Fin p → ℚ)
    (Js : Fin b → Fin o → Fin p → ℚ) : Fin b → Fin o → Fin o → ℚ :=
  fun n c k => ∑ pi : Fin p, Js n c pi * v pi * Js n k pi

/-- `DiagLaplace.functional_covariance(Js)`: reshape then
`einsum('np,p,mp->nm', Js, posterior_variance, Js)`. -/
def functional_covariance_diag {b o p : ℕ} (v : Fin p → ℚ)
    (Js : Fin b → Fin o → Fin p → ℚ) : Fin (b * o) → Fin (b * o) → ℚ :=
  fun i j => ∑ pi : Fin p, reshapeJs Js i pi * v pi * reshapeJs Js j pi

/-- `f_mu.flatten()` in `_glm_predictive_distribution` (joint branch). -/
def flattenMu {b o : ℕ} (f_mu : Fin b → Fin o → ℚ) : Fin (b * o) → ℚ :=
  fun i => f_mu (rowIdx i) (colIdx i)

/-! ## Claim C9 : bridge link approximation never returns NaN

The `'bridge'` / `'bridge_norm'` branch of `ParametricLaplace.__call__`
returns `torch.nan_to_num(alpha / alpha.sum(dim=1).unsqueeze(-1), nan=1.0)`.
Floating-point values are modelled by an extended-value algebra
(finite rational, `±inf`, `nan`); the upstream computation of `alpha` is
arbitrary (we quantify over every possible `alpha` tensor), while the last
division and the `nan_to_num` call are modelled faithfully.
`torch.nan_to_num(x, nan=1.0)` maps NaN to `1.0` and, by its documented
defaults, `±inf` to the greatest/least finite representable float. -/

/-- A floating-point value: finite (exact rational), infinite, or NaN. -/
inductive ExtFloat
  | fin (x : ℚ)
  | posInf
  | negInf
  | nan
  deriving DecidableEq, Repr

/-- Largest finite `float32` value, `(2 - 2^-23) * 2^127`, exactly. -/
def float32Max : ℚ := (2 ^ 24 - 1) * 2 ^ 104

/-- IEEE-style addition on extended values (as performed by torch `sum`):
NaN propagates, opposite infinities give NaN. -/
def extAdd : ExtFloat → ExtFloat → ExtFloat
  | .nan, _ => .nan
  | _, .nan => .nan
  | .posInf, .negInf => .nan
  | .negInf, .posInf => .nan
  | .posInf, _ => .posInf
  | _, .posInf => .posInf
  | .negInf, _ => .negInf
  | _, .negInf => .negInf
  | .fin a, .fin b => .fin (a + b)

/-- IEEE-style division on extended values: NaN propagates, `inf/inf` and
`0/0` give NaN, division of a nonzero finite value by zero gives a signed
infinity (the sign of zero is not modelled: `ℚ` has a single zero). -/
def extDiv : ExtFloat → ExtFloat → ExtFloat
  | .nan, _ => .nan
  | _, .nan => .nan
  | .posInf, .posInf => .nan
  | .posInf, .negInf => .nan
  | .negInf, .posInf => .nan
  | .negInf, .negInf => .nan
  | .posInf, .fin b => if b < 0 then .negInf else .posInf
  | .negInf, .fin b => if b < 0 then .posInf else .negInf
  | .fin _, .posInf => .fin 0
  | .fin _, .negInf => .fin 0
  | .fin a, .fin b =>
      if b = 0 then
        if a = 0 then .nan else if 0 < a then .posInf else .negInf
      else .fin (a / b)

/-- `alpha.sum(dim=1)` on one row (left-to-right accumulation). -/
def rowSum (row : List ExtFloat) : ExtFloat :=
  row.foldl extAdd (.fin 0)

/-- `torch.nan_to_num(·, nan=nan_repl)` with default `posinf`/`neginf`
replacements: NaN becomes `nan_repl`, `±inf` become `±float32Max`. -/
def nan_to_num (nan_repl : ℚ) : ExtFloat → ExtFloat
  | .nan => .fin nan_repl
  | .posInf => .fin float32Max
  | .negInf => .fin (-float32Max)
  | .fin x => .fin x

/-- The tensor `alpha / alpha.sum(dim=1).unsqueeze(-1)` in the bridge
branch. -/
def bridge_ratio (alpha : List (List ExtFloat)) : List (List ExtFloat) :=
  alpha.map fun row => row.map fun a => extDiv a (rowSum row)

/-- The value returned by the bridge branch:
`torch.nan_to_num(alpha / alpha.sum(dim=1).unsqueeze(-1), nan=1.0)`. -/
def bridge_output (alpha : List (List ExtFloat)) : List (List ExtFloat) :=
  (bridge_ratio alpha).map fun row => row.map (nan_to_num 1)

/-! ## Claim C10 : `KronLaplace.prior_precision` structure restriction

The Kron-specific setter first calls the base-class setter
(`super(KronLaplace, type(self)).prior_precision.fset(self, prior_precision)`,
which clears the posterior-scale cache, validates the length against
`{1, n_layers, n_params}` and *stores* the value) and only then checks
`len(self.prior_precision) not in [1, self.n_layers]`, raising `ValueError`.
Because the store happens before the Kron check, a rejected length-`n_params`
assignment leaves the invalid value in `self._prior_precision`.
`BaseLaplace.__init__` assigns `self.prior_precision = prior_precision`
through this same (dynamically dispatched) setter, so construction of a
`KronLaplace` is one such assignment. -/

/-- The attributes of a `KronLaplace` touched by the `prior_precision`
property setter. -/
structure KronPrecState where
  n_layers : ℕ
  n_params : ℕ
  prior_precision : List ℚ
  posterior_scale : Option (List (List ℚ))
  deriving DecidableEq, Repr

/-- `BaseLaplace.prior_precision` setter: clears `_posterior_scale`, wraps a
scalar (or 0-dim tensor) into a singleton, and accepts a 1-D tensor only
with length in `{1, n_layers, n_params}` — the length check happens before
the store, so a base-rejected value is not stored. -/
def base_set_prior_precision (st : KronPrecState) (v : TensorArg) :
    KronPrecState × Option PyErr :=
  let st0 := { st with posterior_scale := none }
  match v with
  | .scalar x => ({ st0 with prior_precision := [x] }, none)
  | .vec l =>
      if l.length = 1 ∨ l.length = st.n_layers ∨ l.length = st.n_params then
        ({ st0 with prior_precision := l }, none)
      else (st0, some .valueError)

/-- `KronLaplace.prior_precision` setter: run the base setter, then raise
`ValueError` unless the (already stored) value has length `1` or
`n_layers`. -/
def kron_set_prior_precision (st : KronPrecState) (v : TensorArg) :
    KronPrecState × Option PyErr :=
  match base_set_prior_precision st v with
  | (st1, some e) => (st1, some e)
  | (st1, none) =>
      if st1.prior_precision.length = 1
          ∨ st1.prior_precision.length = st1.n_layers then
        (st1, none)
      else (st1, some .valueError)

/-! ## Claim C5 : `KronLaplace.fit` with `override=False`

`KronLaplace.fit` (lines 1271-1295): when `override` is false and previous
Kronecker factors `H_facs` exist, it re-initialises the working accumulator
`H`, rescales the previous factors by `n_old/(n_old+n_new)`, runs the
generic batch loop of `ParametricLaplace.fit` (which accumulates the batch
curvatures into `H`), rescales the newly computed factors by
`n_new/(n_new+n_old)`, adds them onto `H_facs`, and finally sets `H` to the
eigendecomposition of `H_facs`.

`_rescale_factors(kron, factor)` multiplies the *second* factor of every
two-factor group by `factor` (scaling a Kronecker product `Q ⊗ H` once);
groups with a single factor are left untouched.  The `Kron` container class
itself lives in `laplace/utils` (not under `src/`), so its algebra is
modelled from the spec: factor-wise aggregation by summing
(`Modelled from the spec`, §4.1 "Accumulate: add another same-typed
contribution in place" / "`Kron` is used to aggregate factors by summing
up"), and `decompose` produces the lazily eigendecomposed representation
(`KronDecomposed`) of exactly the factors it is given; the eigendecomposition
internals are irrelevant to the claim and are kept as an opaque wrapper. -/

/-- A small dense factor matrix. -/
def FactorMat : Type := List (List ℚ)

instance : DecidableEq FactorMat := by
  unfold FactorMat
  infer_instance

/-- Entry-wise matrix sum (same-shape factors). -/
def matAdd (a b : FactorMat) : FactorMat :=
  List.zipWith (List.zipWith (· + ·)) a b

/-- Scalar multiple of a factor matrix. -/
def matSmul (c : ℚ) (a : FactorMat) : FactorMat :=
  a.map (List.map (c * ·))

/-- Modelled from the spec: the `laplace.utils.Kron` container — per
parameter group a short list of Kronecker factor matrices (two for weight
matrices, one for 1-D parameter groups). -/
structure Kron where
  kfacs : List (List FactorMat)
  deriving DecidableEq

/-- Modelled from the spec: `Kron.__add__` / `__iadd__` aggregate two
curvature contributions by summing the corresponding factors. -/
def kronAdd (a b : Kron) : Kron :=
  ⟨List.zipWith (List.zipWith matAdd) a.kfacs b.kfacs⟩

/-- `KronLaplace._rescale_factors(kron, factor)`: multiply the second
factor of every two-factor group by `factor`; one-factor groups are not
rescaled. -/
def rescale_factors (k : Kron) (factor : ℚ) : Kron :=
  ⟨k.kfacs.map fun F =>
    match F with
    | [q, h] => [q, matSmul factor h]
    | other => other⟩

/-- Modelled from the spec: the eigendecomposed representation
(`laplace.utils.KronDecomposed`) used for all algebra once a fit is
finalised; it is determined by the factors handed to `decompose` and the
damping flag. -/
structure KronDecomposed where
  facs : Kron
  damping : Bool
  deriving DecidableEq

/-- `self.H_facs.decompose(damping=self.damping)`. -/
def kronDecompose (k : Kron) (damping : Bool) : KronDecomposed :=
  ⟨k, damping⟩

/-- The working accumulator `self.H` of a `KronLaplace`: an undecomposed
`Kron` during fitting, a `KronDecomposed` after a fit is finalised. -/
inductive KronH
  | facs (k : Kron)
  | dec (d : KronDecomposed)
  deriving DecidableEq

/-- Attributes of a `KronLaplace` relevant to `fit`. -/
structure KronState where
  H : KronH
  H_facs : Option Kron
  loss : ℚ
  n_data : ℕ
  mean : List ℚ
  damping : Bool
  deriving DecidableEq

/-- One step of the batch loop of `ParametricLaplace.fit`:
`loss_batch, H_batch = self._curv_closure(X, y, N); self.loss += loss_batch;
self.H += H_batch`.  The curvature backend enters as the function `curv`
(`backend.kron(X, y, N)`).  `self.H` is always an undecomposed `Kron`
during the loop; the `dec` branch is unreachable there. -/
def kron_fit_step {β : Type} (curv : β → ℕ → ℚ × Kron) (N : ℕ)
    (s : KronState) (b : β) : KronState :=
  let lb := (curv b N).1
  let Hb := (curv b N).2
  { s with
      loss := s.loss + lb
      H := match s.H with
        | .facs k => .facs (kronAdd k Hb)
        | d => d }

/-- `KronLaplace.fit(train_loader, override)` (composed with the inherited
`ParametricLaplace.fit` body).  `init_H` stands for
`Kron.init_from_model(self.params, self._device)` (zero factors;
`laplace/utils`, modelled from the spec), `params_vec` for
`parameters_to_vector(self.params)`. -/
def kron_fit {β : Type} (init_H : Kron) (curv : β → ℕ → ℚ × Kron)
    (params_vec : List ℚ) (loader : Loader β) (override : Bool)
    (st : KronState) : KronState :=
  -- KronLaplace.fit: `if override: self.H_facs = None`
  let st := if override then { st with H_facs := none } else st
  let n_data_old := st.n_data
  let n_data_new := loader.dataset_size
  -- `if self.H_facs is not None: ... re-init H, discount previous factors`
  let st :=
    match st.H_facs with
    | none => st
    | some hf =>
        { st with
            H := .facs init_H
            H_facs := some (rescale_factors hf
              ((n_data_old : ℚ) / ((n_data_old : ℚ) + (n_data_new : ℚ)))) }
  -- ParametricLaplace.fit: reset on override, read the MAP, batch loop
  let st := if override then
      { st with H := .facs init_H, loss := 0, n_data := 0 }
    else st
  let st := { st with mean := params_vec }
  let st := loader.batches.foldl (kron_fit_step curv loader.dataset_size) st
  let st := { st with n_data := st.n_data + loader.dataset_size }
  -- back in KronLaplace.fit: merge into H_facs, then decompose
  match st.H_facs with
  | none =>
      let hf := match st.H with
        | .facs k => k
        | .dec _ => init_H   -- unreachable: H is undecomposed here
      { st with H_facs := some hf, H := .dec (kronDecompose hf st.damping) }
  | some hf =>
      let hnew := match st.H with
        | .facs k => k
        | .dec _ => init_H   -- unreachable: H is undecomposed here
      let hf2 := kronAdd hf (rescale_factors hnew
        ((n_data_new : ℚ) / ((n_data_new : ℚ) + (n_data_old : ℚ))))
      { st with H_facs := some hf2, H := .dec (kronDecompose hf2 st.damping) }

/-! ## Claim C3 : grid-search prior-precision optimization

`BaseLaplace.optimize_prior_precision_base` with `method='gridsearch'`
builds `interval = torch.logspace(log_prior_prec_min, log_prior_prec_max,
grid_size)` and sets `self.prior_precision = self._gridsearch(...)`.
`_gridsearch` iterates the interval, sets the candidate precision, calls
`validate(...)` inside `try: ... except RuntimeError: result = np.inf`,
collects `(prior_prec, result)` pairs, and returns
`prior_precs[np.argmin(results)]` (the first index attaining the minimum).
Exceptions other than `RuntimeError` propagate out of the loop. -/

/-- Decidable equality of `Except` results, used to evaluate the embedded
functions at concrete inputs. -/
instance exceptDecidableEq {ε α : Type} [DecidableEq ε] [DecidableEq α] :
    DecidableEq (Except ε α)
  | .ok a, .ok b =>
      if h : a = b then isTrue (by rw [h]) else
        isFalse (by intro hh; cases hh; exact h rfl)
  | .ok _, .error _ => isFalse (by intro hh; cases hh)
  | .error _, .ok _ => isFalse (by intro hh; cases hh)
  | .error e, .error f =>
      if h : e = f then isTrue (by rw [h]) else
        isFalse (by intro hh; cases hh; exact h rfl)

/-- Modelled from the spec: `laplace.utils.validate` (not under `src/`)
computes the validation loss of the predictive over the held-out loader —
"computing validation loss (a streaming or accumulated metric)" — for the
scalar prior precision currently in effect; a numerical failure surfaces
as a raised `RuntimeError`.  It is kept opaque: a function from the
candidate prior precision to a loss or an exception. -/
def ValidateFn : Type := ℚ → Except PyErr ℚ

/-- `torch.logspace(a, b, steps)`: `steps` points `10^(a + i*(b-a)/(steps-1))`
for `i = 0, …, steps-1`.  The power function `10^·` is the external torch
kernel and enters as the parameter `tenPow`.  (For `steps = 1` the only
index is `i = 0` and the list is `[tenPow a]`, as in torch.) -/
def logspace (tenPow : ℚ → ℚ) (a b : ℚ) (steps : ℕ) : List ℚ :=
  (List.range steps).map fun i : ℕ =>
    tenPow (a + (i : ℚ) * (b - a) / ((steps : ℚ) - 1))

/-- One grid point of `_gridsearch`: `validate` inside
`try: ... except RuntimeError: result = np.inf`.  An `np.inf` score is the
top element of `WithTop ℚ`; exceptions other than `RuntimeError`
propagate. -/
def grid_point_score (validate : ValidateFn) (p : ℚ) :
    Except PyErr (WithTop ℚ) :=
  match validate p with
  | .ok r => .ok (r : WithTop ℚ)
  | .error .runtimeError => .ok ⊤
  | .error e => .error e

/-- The loss recorded in `results` for a grid point, as a total function
(on the non-propagating paths it agrees with `grid_point_score`). -/
def recorded_loss (validate : ValidateFn) (p : ℚ) : WithTop ℚ :=
  match validate p with
  | .ok r => (r : WithTop ℚ)
  | .error _ => ⊤

/-- The `results` list accumulated by the `_gridsearch` loop (an exception
other than `RuntimeError` aborts the loop and propagates). -/
def gridsearch_results (validate : ValidateFn) :
    List ℚ → Except PyErr (List (WithTop ℚ))
  | [] => .ok []
  | p :: rest =>
      match grid_point_score validate p with
      | .error e => .error e
      | .ok r =>
          match gridsearch_results validate rest with
          | .error e => .error e
          | .ok rs => .ok (r :: rs)

/-- `prior_precs[np.argmin(results)]` over the zipped
`(prior_prec, result)` pairs: the first pair attaining the minimal result
(`np.argmin` returns the first index of the minimum; a later pair replaces
the current best only on strictly smaller loss). -/
def select_min (x : ℚ × WithTop ℚ) (l : List (ℚ × WithTop ℚ)) :
    ℚ × WithTop ℚ :=
  l.foldl (fun best y => if y.2 < best.2 then y else best) x

/-- `BaseLaplace._gridsearch`: score every grid point, then return the
grid value at the first minimal recorded loss (`np.argmin` on an empty
sequence raises `ValueError`). -/
def gridsearch (validate : ValidateFn) (interval : List ℚ) :
    Except PyErr ℚ :=
  match gridsearch_results validate interval with
  | .error e => .error e
  | .ok results =>
      match interval.zip results with
      | [] => .error .valueError
      | x :: rest => .ok (select_min x rest).1

/-- The `method='gridsearch'` branch of
`BaseLaplace.optimize_prior_precision_base`: requires a validation loader,
builds the log-spaced interval, and stores the selected scalar through the
`prior_precision` setter (scalar → singleton tensor).  The result is the
stored `prior_precision` after the call. -/
def optimize_prior_precision_gridsearch (tenPow : ℚ → ℚ)
    (validate : ValidateFn) (log_prior_prec_min log_prior_prec_max : ℚ)
    (grid_size : ℕ) (val_loader_present : Bool) : Except PyErr (List ℚ) :=
  if !val_loader_present then .error .valueError
  else
    match gridsearch validate
        (logspace tenPow log_prior_prec_min log_prior_prec_max grid_size) with
    | .error e => .error e
    | .ok p => .ok [p]

/-! ## BaseLaplace / ParametricLaplace state and property setters

Shared by claims C1 (log marginal likelihood), C2 (precondition errors)
and C4 (serialization).  The property setters normalize and validate their
argument exactly as the `@prior_precision.setter`, `@prior_mean.setter`
and `@sigma_noise.setter` bodies do; a scalar Python number and a 0-dim
tensor are both normalized to a singleton. -/

/-- Attributes of a `BaseLaplace` / `ParametricLaplace` instance (the
curvature accumulator `H` is added by the per-subclass states). -/
structure PLState where
  likelihood : Likelihood
  sigma_noise : ℚ
  temperature : ℚ
  loss : ℚ
  n_data : ℕ
  n_outputs : ℕ
  n_params : ℕ
  n_layers : ℕ
  params_per_layer : List ℕ
  prior_precision : List ℚ
  prior_mean : List ℚ
  mean : List ℚ
  enable_backprop : Bool
  deriving DecidableEq, Repr

/-- `BaseLaplace.prior_precision` setter: scalar → singleton; a 1-D tensor
is accepted only with length in `{1, n_layers, n_params}`. -/
def normalize_prior_precision (n_layers n_params : ℕ) :
    TensorArg → Except PyErr (List ℚ)
  | .scalar x => .ok [x]
  | .vec v =>
      if v.length = 1 ∨ v.length = n_layers ∨ v.length = n_params then .ok v
      else .error .valueError

/-- `BaseLaplace.prior_mean` setter: scalar → singleton; a 1-D tensor is
accepted only with length in `{1, n_params}`. -/
def normalize_prior_mean (n_params : ℕ) : TensorArg → Except PyErr (List ℚ)
  | .scalar x => .ok [x]
  | .vec v =>
      if v.length = 1 ∨ v.length = n_params then .ok v
      else .error .valueError

/-- `BaseLaplace.sigma_noise` setter: scalar accepted; a 1-D tensor of
length > 1 raises (`Only homoscedastic output noise supported`),
length 1 takes its single entry, and indexing an empty tensor raises. -/
def normalize_sigma_noise : TensorArg → Except PyErr ℚ
  | .scalar x => .ok x
  | .vec v =>
      if v.length > 1 then .error .valueError
      else
        match v with
        | [x] => .ok x
        | _ => .error .indexError

/-- `BaseLaplace.prior_precision_diag`: expand the stored prior precision
to a length-`n_params` diagonal vector — the scalar case is tested first,
then the full-diagonal case, then the per-layer case (the source's test
order); any other length raises. -/
def prior_precision_diag (st : PLState) : Except PyErr (List ℚ) :=
  if st.prior_precision.length = 1 then
    .ok (List.replicate st.n_params st.prior_precision.headI)
  else if st.prior_precision.length = st.n_params then
    .ok st.prior_precision
  else if st.prior_precision.length = st.n_layers then
    .ok ((st.prior_precision.zip st.params_per_layer).map
      fun pk => List.replicate pk.2 pk.1).flatten
  else .error .valueError

/-- `BaseLaplace._H_factor`: `1 / sigma_noise**2 / temperature`. -/
def H_factor (st : PLState) : ℚ := 1 / st.sigma_noise ^ 2 / st.temperature

/-- `BaseLaplace.log_likelihood`: `factor = -self._H_factor`; for
regression the Gaussian normalizer
`n_data * n_outputs * log(sigma_noise * sqrt(2*pi))` is subtracted; for
classification (and during reward-modeling fitting) it is `factor * loss`.
`rlog` is the external `torch.log` kernel and `sqrt2pi` the float constant
`sqrt(2*pi)`. -/
def log_likelihood (rlog : ℚ → ℚ) (sqrt2pi : ℚ) (st : PLState) : ℚ :=
  let factor := -(H_factor st)
  match st.likelihood with
  | .regression =>
      factor * st.loss
        - (st.n_data : ℚ) * (st.n_outputs : ℚ)
          * rlog (st.sigma_noise * sqrt2pi)
  | _ => factor * st.loss

/-- Torch broadcasting subtraction `self.mean - self.prior_mean`: a
singleton prior mean broadcasts over the parameter vector. -/
def bsub (mean pm : List ℚ) : List ℚ :=
  if pm.length = 1 then mean.map (· - pm.headI)
  else List.zipWith (· - ·) mean pm

/-- Vector dot product (`@` on 1-D tensors). -/
def dot (u v : List ℚ) : ℚ := (List.zipWith (· * ·) u v).sum

/-- `ParametricLaplace.scatter`:
`(delta * self.prior_precision_diag) @ delta` with
`delta = self.mean - self.prior_mean`. -/
def scatter (st : PLState) : Except PyErr ℚ :=
  match prior_precision_diag st with
  | .error e => .error e
  | .ok d =>
      let delta := bsub st.mean st.prior_mean
      .ok (dot (List.zipWith (· * ·) delta d) delta)

/-- `ParametricLaplace.log_det_prior_precision`:
`self.prior_precision_diag.log().sum()`. -/
def log_det_prior_precision (rlog : ℚ → ℚ) (st : PLState) :
    Except PyErr ℚ :=
  match prior_precision_diag st with
  | .error e => .error e
  | .ok d => .ok (d.map rlog).sum

/-- `ParametricLaplace.log_det_ratio`:
`log_det_posterior_precision - log_det_prior_precision`.  The
subclass-specific posterior log-determinant enters as `ldp`. -/
def log_det_ratio (rlog : ℚ → ℚ) (ldp : PLState → ℚ) (st : PLState) :
    Except PyErr ℚ :=
  match log_det_prior_precision rlog st with
  | .error e => .error e
  | .ok ldprior => .ok (ldp st - ldprior)

/-- The value computed by the `return` statement of
`ParametricLaplace.log_marginal_likelihood`:
`self.log_likelihood - 0.5 * (self.log_det_ratio + self.scatter)`. -/
def marglik_value (rlog : ℚ → ℚ) (sqrt2pi : ℚ) (ldp : PLState → ℚ)
    (st : PLState) : Except PyErr ℚ :=
  match log_det_ratio rlog ldp st with
  | .error e => .error e
  | .ok ldr =>
      match scatter st with
      | .error e => .error e
      | .ok sc =>
          .ok (log_likelihood rlog sqrt2pi st - 1 / 2 * (ldr + sc))

/-- The `prior_precision` argument handling of
`log_marginal_likelihood`: when present, the stored value is overwritten
through the `prior_precision` setter. -/
def update_prior_precision_arg (st : PLState) :
    Option TensorArg → Except PyErr PLState
  | none => .ok st
  | some pp =>
      match normalize_prior_precision st.n_layers st.n_params pp with
      | .error e => .error e
      | .ok v => .ok { st with prior_precision := v }

/-- The `sigma_noise` argument handling of `log_marginal_likelihood`: when
present, it raises unless the likelihood is regression, and otherwise the
stored value is overwritten through the `sigma_noise` setter. -/
def update_sigma_noise_arg (st : PLState) :
    Option TensorArg → Except PyErr PLState
  | none => .ok st
  | some sn =>
      if st.likelihood ≠ Likelihood.regression then .error .valueError
      else
        match normalize_sigma_noise sn with
        | .error e => .error e
        | .ok s => .ok { st with sigma_noise := s }

/-- `ParametricLaplace.log_marginal_likelihood(prior_precision,
sigma_noise)`: overwrite the stored values from the optional arguments,
then return `log_likelihood - 0.5 * (log_det_ratio + scatter)` computed on
the updated state; the updated state is returned alongside the value. -/
def log_marginal_likelihood (rlog : ℚ → ℚ) (sqrt2pi : ℚ)
    (ldp : PLState → ℚ) (st : PLState)
    (prior_precision sigma_noise : Option TensorArg) :
    Except PyErr (PLState × ℚ) :=
  match update_prior_precision_arg st prior_precision with
  | .error e => .error e
  | .ok st1 =>
      match update_sigma_noise_arg st1 sigma_noise with
      | .error e => .error e
      | .ok st2 =>
          match marglik_value rlog sqrt2pi ldp st2 with
          | .error e => .error e
          | .ok v => .ok (st2, v)

/-- The log marginal likelihood as the spec's words state it, written
independently of the source decomposition:
`H_factor = 1/(sigma_noise^2 * temperature)`;
`log_likelihood = -H_factor * loss` for classification and
`-H_factor * loss - n_data * n_outputs * log(sigma_noise * sqrt(2*pi))`
for regression; `log_det_ratio = log det P - log det P_0`;
`scatter = (mean - prior_mean)^T diag(p_0) (mean - prior_mean)`; result
`log_likelihood - (log_det_ratio + scatter) / 2`. -/
def spec_log_marginal_likelihood (rlog : ℚ → ℚ) (sqrt2pi : ℚ)
    (ldp : PLState → ℚ) (st : PLState) : Except PyErr ℚ :=
  match prior_precision_diag st with
  | .error e => .error e
  | .ok d =>
      let specH := 1 / (st.sigma_noise ^ 2 * st.temperature)
      let ll :=
        match st.likelihood with
        | .regression =>
            -specH * st.loss
              - (st.n_data : ℚ) * (st.n_outputs : ℚ)
                * rlog (st.sigma_noise * sqrt2pi)
        | _ => -specH * st.loss
      let delta := bsub st.mean st.prior_mean
      let sc := dot (List.zipWith (· * ·) delta d) delta
      let ldr := ldp st - (d.map rlog).sum
      .ok (ll - (ldr + sc) / 2)

/-! ## Serialized state (claims C2 and C4)

`ParametricLaplace.state_dict` exports a plain mapping; `load_state_dict`
validates and imports one.  The curvature payload has the subclass-specific
type `α`.  The stored `prior_mean`, `prior_precision` and `sigma_noise` are
arbitrary scalar-or-1-D tensors, since an arbitrary mapping may hold
malformed entries. -/

/-- The mapping produced by `ParametricLaplace.state_dict`. -/
structure LapStateDict (α : Type) where
  mean : List ℚ
  H : α
  loss : ℚ
  prior_mean : TensorArg
  prior_precision : TensorArg
  sigma_noise : TensorArg
  n_data : ℕ
  n_outputs : ℕ
  likelihood : Likelihood
  temperature : ℚ
  enable_backprop : Bool
  cls_name : String
  deriving DecidableEq

/-- A `ParametricLaplace` instance as the receiver of `load_state_dict`:
its concrete class name, its base attributes, and its curvature
accumulator. -/
structure LapSelf (α : Type) where
  cls_name : String
  st : PLState
  H : Option α
  deriving DecidableEq

/-- The recoverable `warnings.warn` calls of `load_state_dict`. -/
inductive LoadWarning
  | temperatureMismatch
  | backpropMismatch
  deriving DecidableEq, Repr

/-- The warnings emitted by a load that passes the dealbreaker checks:
one for a differing `temperature`, one for a differing `enable_backprop`
flag. -/
def load_warnings (self_temp sd_temp : ℚ) (self_eb sd_eb : Bool) :
    List LoadWarning :=
  (if self_temp ≠ sd_temp then [LoadWarning.temperatureMismatch] else [])
    ++ (if self_eb ≠ sd_eb then [LoadWarning.backpropMismatch] else [])

/-- `ParametricLaplace.load_state_dict(state_dict)`: the three dealbreaker
checks (class tag, MAP length vs `n_params`, likelihood) raise before any
mutation; then the temperature / backprop mismatches are warned about; then
every stored field is copied into the instance — `prior_mean`,
`prior_precision` and `sigma_noise` through their property setters, which
can themselves raise on malformed stored values, leaving the fields copied
so far in place.  Result: the instance after the call, the warnings
emitted, and the raised exception if any. -/
def load_state_dict {α : Type} (self : LapSelf α) (sd : LapStateDict α) :
    LapSelf α × List LoadWarning × Option PyErr :=
  if self.cls_name ≠ sd.cls_name then (self, [], some .valueError)
  else if sd.mean.length ≠ self.st.n_params then (self, [], some .valueError)
  else if self.st.likelihood ≠ sd.likelihood then (self, [], some .valueError)
  else
    let warns := load_warnings self.st.temperature sd.temperature
      self.st.enable_backprop sd.enable_backprop
    let self1 : LapSelf α :=
      { self with
          st := { self.st with mean := sd.mean, loss := sd.loss }
          H := some sd.H }
    match normalize_prior_mean self1.st.n_params sd.prior_mean with
    | .error e => (self1, warns, some e)
    | .ok pm =>
        let self2 : LapSelf α :=
          { self1 with st := { self1.st with prior_mean := pm } }
        match normalize_prior_precision self2.st.n_layers self2.st.n_params
            sd.prior_precision with
        | .error e => (self2, warns, some e)
        | .ok ppv =>
            let self3 : LapSelf α :=
              { self2 with st := { self2.st with prior_precision := ppv } }
            match normalize_sigma_noise sd.sigma_noise with
            | .error e => (self3, warns, some e)
            | .ok snv =>
                ({ self3 with
                    st := { self3.st with
                        sigma_noise := snv
                        n_data := sd.n_data
                        n_outputs := sd.n_outputs
                        likelihood := sd.likelihood
                        temperature := sd.temperature
                        enable_backprop := sd.enable_backprop } },
                  warns, none)

/-! ## `FullLaplace` (claim C2)

`FullLaplace.posterior_precision` calls `self._check_H_init()`
(`AttributeError('Laplace not fitted. Run fit() first.')` when the
accumulator is `None`, i.e. uninitialized) before combining the scaled
accumulator with the diagonal prior; `sample` goes through
`posterior_scale` → `_compute_scale` → `posterior_precision`;
`ParametricLaplace.state_dict` calls `self._check_H_init()` first. -/

/-- `FullLaplace` state: the dense accumulator (`none` = uninitialized)
and the lazily computed posterior-scale cache `_posterior_scale`. -/
structure FullState extends PLState where
  H : Option (List (List ℚ))
  posterior_scale_cache : Option (List (List ℚ))

/-- `torch.diag` of a 1-D tensor. -/
def diag_embed (d : List ℚ) : List (List ℚ) :=
  (List.range d.length).map fun i : ℕ =>
    (List.range d.length).map fun j : ℕ => if i = j then d.getD i 0 else 0

/-- `FullLaplace.posterior_precision`: `_check_H_init()` then
`H_factor * H + diag(prior_precision_diag)`. -/
def full_posterior_precision (st : FullState) :
    Except PyErr (List (List ℚ)) :=
  match st.H with
  | none => .error .attributeError
  | some Hm =>
      match prior_precision_diag st.toPLState with
      | .error e => .error e
      | .ok d =>
          .ok (matAdd (matSmul (H_factor st.toPLState) Hm) (diag_embed d))

/-- `FullLaplace.posterior_scale`: return the cache if set, else
`invsqrt_precision(self.posterior_precision)` (the inverse matrix square
root is a `laplace/utils` numerical kernel and enters as `invsqrt`). -/
def full_posterior_scale (invsqrt : List (List ℚ) → List (List ℚ))
    (st : FullState) : Except PyErr (List (List ℚ)) :=
  match st.posterior_scale_cache with
  | some s => .ok s
  | none =>
      match full_posterior_precision st with
      | .error e => .error e
      | .ok P => .ok (invsqrt P)

/-- Matrix product (`samples @ posterior_scale`). -/
def matMul (A B : List (List ℚ)) : List (List ℚ) :=
  A.map fun row => (List.range B.headI.length).map fun j : ℕ =>
    ((row.zip B).map fun rc => rc.1 * rc.2.getD j 0).sum

/-- Entry-wise vector sum. -/
def vecAdd (u v : List ℚ) : List ℚ := List.zipWith (· + ·) u v

/-- `FullLaplace.sample(n_samples)`: standard-normal draws (the external
`torch.randn` output enters as `noise`) times the posterior scale, plus the
MAP vector. -/
def full_sample (invsqrt : List (List ℚ) → List (List ℚ))
    (noise : List (List ℚ)) (st : FullState) :
    Except PyErr (List (List ℚ)) :=
  match full_posterior_scale invsqrt st with
  | .error e => .error e
  | .ok s => .ok ((matMul noise s).map fun row => vecAdd st.mean row)

/-- `ParametricLaplace.state_dict` for a `FullLaplace`:
`self._check_H_init()` then the field mapping. -/
def full_state_dict (st : FullState) :
    Except PyErr (LapStateDict (List (List ℚ))) :=
  match st.H with
  | none => .error .attributeError
  | some Hm =>
      .ok { mean := st.mean
            H := Hm
            loss := st.loss
            prior_mean := .vec st.prior_mean
            prior_precision := .vec st.prior_precision
            sigma_noise := .scalar st.sigma_noise
            n_data := st.n_data
            n_outputs := st.n_outputs
            likelihood := st.likelihood
            temperature := st.temperature
            enable_backprop := st.enable_backprop
            cls_name := "FullLaplace" }

/-- Receiver instance for the C4 counterexample: a model with 3 parameters
in a single layer. -/
def c4_self : LapSelf ℕ :=
  ⟨"FullLaplace",
    ⟨.classification, 1, 1, 0, 0, 0, 3, 1, [3], [1], [0], [0, 0, 0], false⟩,
    some 0⟩

/-- Serialized mapping for the C4 counterexample: matching class tag, MAP
length and likelihood, but a stored prior precision of length 2 — not in
`{1, n_layers, n_params} = {1, 1, 3}`. -/
def c4_sd : LapStateDict ℕ :=
  ⟨[0, 0, 0], 7, 0, .vec [0], .vec [1, 1], .scalar 1, 5, 2,
    .classification, 1, false, "FullLaplace"⟩

/-! ## Theorems -/

/-- C8: for every `LowRankLaplace` instance, calling `fit` with
`override=False` raises a `ValueError` and leaves the state unchanged: the
low-rank eigendecomposition is not additive across fits. -/
theorem C8_lowrank_fit_no_update {β : Type} (params_vec : List ℚ)
    (probe_out_dim : ℕ) (eig : Loader β → List (List ℚ) × List ℚ × ℚ)
    (loader : Loader β) (st : LowRankState) :
    lowRankFit params_vec probe_out_dim eig loader false st
      = (some PyErr.valueError, st) := by
  rfl

theorem paramsAtForwards_samples (samples : List (List ℚ)) (mean cur : List ℚ) :
    paramsAtForwards cur
        ((samples.map fun s => [NNEvent.setParams s, NNEvent.forwardPass]).flatten
          ++ [NNEvent.setParams mean]) = samples := by
  induction samples generalizing cur with
  | nil => rfl
  | cons s rest ih =>
      simp only [List.map_cons, List.flatten, List.cons_append, List.append_assoc,
        paramsAtForwards, List.nil_append]
      exact congrArg (s :: ·) (ih s)

theorem finalParams_samples (samples : List (List ℚ)) (mean cur : List ℚ) :
    finalParams cur
        ((samples.map fun s => [NNEvent.setParams s, NNEvent.forwardPass]).flatten
          ++ [NNEvent.setParams mean]) = mean := by
  induction samples generalizing cur with
  | nil => rfl
  | cons s rest ih =>
      simp only [List.map_cons, List.flatten, List.cons_append, List.append_assoc,
        finalParams, List.nil_append]
      exact ih s

theorem setPayloads_samples (samples : List (List ℚ)) (mean : List ℚ) :
    setPayloads
        ((samples.map fun s => [NNEvent.setParams s, NNEvent.forwardPass]).flatten
          ++ [NNEvent.setParams mean]) = samples ++ [mean] := by
  induction samples with
  | nil => rfl
  | cons s rest ih =>
      simp only [List.map_cons, List.flatten, List.cons_append, List.append_assoc,
        setPayloads, List.nil_append]
      exact congrArg (s :: ·) ih

/-- C7: during each forward pass of the nn-sampling predictive the model's
trainable parameters hold exactly that posterior sample; the MAP vector
`mean` is restored before control returns; and the trace performs exactly
the writes `samples ++ [mean]`, i.e. the restoration happens exactly once,
after all samples, never per-sample.  Both `_nn_predictive_samples` and
`_nn_predictive_classification` are covered. -/
theorem C7_nn_predictive_restores_mean (samples : List (List ℚ))
    (mean p0 : List ℚ) :
    paramsAtForwards p0 (nnPredictiveSamplesTrace samples mean) = samples
    ∧ finalParams p0 (nnPredictiveSamplesTrace samples mean) = mean
    ∧ setPayloads (nnPredictiveSamplesTrace samples mean) = samples ++ [mean]
    ∧ paramsAtForwards p0 (nnPredictiveClassificationTrace samples mean)
        = samples
    ∧ finalParams p0 (nnPredictiveClassificationTrace samples mean) = mean
    ∧ setPayloads (nnPredictiveClassificationTrace samples mean)
        = samples ++ [mean] := by
  refine ⟨paramsAtForwards_samples samples mean p0,
    finalParams_samples samples mean p0,
    setPayloads_samples samples mean,
    paramsAtForwards_samples samples mean p0,
    finalParams_samples samples mean p0,
    setPayloads_samples samples mean⟩

theorem rowIdx_flatIdx {b o : ℕ} (n : Fin b) (c : Fin o) :
    rowIdx (flatIdx n c) = n := by
  apply Fin.ext
  show (n.val * o + c.val) / o = n.val
  have ho : 0 < o := Nat.lt_of_le_of_lt (Nat.zero_le _) c.isLt
  rw [Nat.mul_comm n.val o, Nat.mul_add_div ho, Nat.div_eq_of_lt c.isLt,
    Nat.add_zero]

theorem colIdx_flatIdx {b o : ℕ} (n : Fin b) (c : Fin o) :
    colIdx (flatIdx n c) = c := by
  apply Fin.ext
  show (n.val * o + c.val) % o = c.val
  rw [Nat.mul_comm n.val o, Nat.mul_add_mod]
  exact Nat.mod_eq_of_lt c.isLt

/-- C6: the diagonal of the joint functional covariance agrees with the
flattened per-example diagonals of the marginal functional variance, for
both the Full and the Diag posterior structure, and the flattened joint
predictive mean agrees with the marginal predictive mean: entry `(n, c)` of
the marginal quantities equals entry `n*o + c` of the joint ones. -/
theorem C6_joint_marginal_agree {b o p : ℕ} (S : Fin p → Fin p → ℚ)
    (v : Fin p → ℚ) (Js : Fin b → Fin o → Fin p → ℚ)
    (f_mu : Fin b → Fin o → ℚ) (n : Fin b) (c : Fin o) :
    functional_covariance_full S Js (flatIdx n c) (flatIdx n c)
        = functional_variance_full S Js n c c
    ∧ functional_covariance_diag v Js (flatIdx n c) (flatIdx n c)
        = functional_variance_diag v Js n c c
    ∧ flattenMu f_mu (flatIdx n c) = f_mu n c := by
  refine ⟨?_, ?_, ?_⟩
  · unfold functional_covariance_full functional_variance_full reshapeJs
    rw [rowIdx_flatIdx, colIdx_flatIdx]
  · unfold functional_covariance_diag functional_variance_diag reshapeJs
    rw [rowIdx_flatIdx, colIdx_flatIdx]
  · unfold flattenMu
    rw [rowIdx_flatIdx, colIdx_flatIdx]

theorem listGetD_map {α β : Type} (f : α → β) (l : List α) (i : ℕ) (d : α) :
    (l.map f).getD i (f d) = f (l.getD i d) := by
  induction l generalizing i with
  | nil => rfl
  | cons a t ih =>
      cases i with
      | zero => rfl
      | succ k => exact ih k

theorem bridge_output_entry (alpha : List (List ExtFloat)) (i j : ℕ) :
    ((bridge_output alpha).getD i []).getD j (.fin 0)
      = nan_to_num 1 (((bridge_ratio alpha).getD i []).getD j (.fin 0)) := by
  have h1 : (bridge_output alpha).getD i []
      = ((bridge_ratio alpha).getD i []).map (nan_to_num 1) := by
    have := listGetD_map (fun row : List ExtFloat => row.map (nan_to_num 1))
      (bridge_ratio alpha) i []
    simpa [bridge_output] using this
  rw [h1]
  exact listGetD_map (nan_to_num 1) ((bridge_ratio alpha).getD i []) j (.fin 0)

/-- C9: every entry of the tensor returned by the bridge branch is a finite
value — in particular the returned tensor never contains NaN — and a NaN
arising in the bridge ratio `alpha / alpha.sum(dim=1)` is replaced by the
neutral value `1.0` (a uniform Dirichlet-like contribution) rather than
propagated.  (By the `nan_to_num` defaults, `±inf` entries are replaced by
the largest/smallest finite float rather than by the neutral value.) -/
theorem C9_bridge_output_no_nan (alpha : List (List ExtFloat)) (i j : ℕ) :
    ((bridge_output alpha).getD i []).getD j (.fin 0) ≠ ExtFloat.nan
    ∧ (∃ q : ℚ,
        ((bridge_output alpha).getD i []).getD j (.fin 0) = ExtFloat.fin q)
    ∧ (((bridge_ratio alpha).getD i []).getD j (.fin 0) = ExtFloat.nan →
        ((bridge_output alpha).getD i []).getD j (.fin 0) = ExtFloat.fin 1) := by
  rw [bridge_output_entry]
  rcases hx : ((bridge_ratio alpha).getD i []).getD j (.fin 0) with q | _ | _ | _ <;>
    exact ⟨by simp [nan_to_num], ⟨_, rfl⟩, by intro h; simp_all [nan_to_num]⟩

/-- An `alpha` row containing an infinity: its row sum is infinite, the
ratio entry is `inf/inf = NaN`, and the returned entry is the neutral `1`. -/
theorem C9_bridge_output_no_nan_witness :
    ((bridge_ratio [[ExtFloat.posInf, ExtFloat.fin 1]]).getD 0 []).getD 0
        (.fin 0) = ExtFloat.nan
    ∧ ((bridge_output [[ExtFloat.posInf, ExtFloat.fin 1]]).getD 0 []).getD 0
        (.fin 0) = ExtFloat.fin 1 :=
  ⟨by decide,
    (C9_bridge_output_no_nan [[ExtFloat.posInf, ExtFloat.fin 1]] 0 0).2.2
      (by decide)⟩

/-- C10 counterexample: on a `KronLaplace` with `n_layers = 2` and
`n_params = 5`, assigning the full length-`n_params` diagonal
`[1, 1, 1, 1, 1]` does raise a `ValueError`, but after the failed
assignment the instance holds that invalid-length prior precision — the
claimed invariant `len(prior_precision) ∈ {1, n_layers}` does not hold
after this assignment. -/
theorem C10_counterexample :
    (kron_set_prior_precision ⟨2, 5, [1], none⟩
        (.vec [1, 1, 1, 1, 1])).2 = some PyErr.valueError
    ∧ ¬((kron_set_prior_precision ⟨2, 5, [1], none⟩
          (.vec [1, 1, 1, 1, 1])).1.prior_precision.length = 1
        ∨ (kron_set_prior_precision ⟨2, 5, [1], none⟩
            (.vec [1, 1, 1, 1, 1])).1.prior_precision.length = 2) := by
  decide

/-- C10 (amended): every assignment that completes without raising —
construction included, since `__init__` assigns through the same setter —
establishes `len(prior_precision) ∈ {1, n_layers}`; assigning a 1-D prior
precision whose length is neither `1` nor `n_layers` (in particular a full
length-`n_params` diagonal, which the base class accepts) raises a
`ValueError`; but a raising assignment leaves the instance holding either
its previous prior precision (base-rejected length) or the rejected value
itself (Kron-rejected length), so the invariant is only guaranteed after
non-raising assignments. -/
theorem C10_kron_prior_precision_invariant (st : KronPrecState)
    (v : TensorArg) :
    ((kron_set_prior_precision st v).2 = none →
      (kron_set_prior_precision st v).1.prior_precision.length = 1
        ∨ (kron_set_prior_precision st v).1.prior_precision.length
            = st.n_layers)
    ∧ (∀ l : List ℚ, v = .vec l → l.length ≠ 1 → l.length ≠ st.n_layers →
        (kron_set_prior_precision st v).2 = some PyErr.valueError)
    ∧ ((kron_set_prior_precision st v).2 ≠ none →
        (kron_set_prior_precision st v).1.prior_precision = st.prior_precision
        ∨ ∃ l : List ℚ, v = .vec l
            ∧ (kron_set_prior_precision st v).1.prior_precision = l) := by
  cases v with
  | scalar x =>
      refine ⟨fun _ => Or.inl rfl, ?_, ?_⟩
      · intro l hl h1 h2
        cases hl
      · intro h
        exact absurd rfl h
  | vec l =>
      by_cases hb : l.length = 1 ∨ l.length = st.n_layers
          ∨ l.length = st.n_params
      · have hbase : base_set_prior_precision st (.vec l)
            = ({ st with posterior_scale := none, prior_precision := l },
                none) := by
          simp only [base_set_prior_precision, if_pos hb]
        by_cases hk : l.length = 1 ∨ l.length = st.n_layers
        · have : kron_set_prior_precision st (.vec l)
              = ({ st with posterior_scale := none, prior_precision := l },
                  none) := by
            simp only [kron_set_prior_precision, hbase, if_pos hk]
          refine ⟨fun _ => ?_, fun l' hl' h1 h2 => ?_, fun h => ?_⟩
          · rw [this]; exact hk
          · cases hl'
            exact absurd hk (by
              intro hh
              rcases hh with hh | hh
              · exact h1 hh
              · exact h2 hh)
          · rw [this] at h; exact absurd rfl h
        · have : kron_set_prior_precision st (.vec l)
              = ({ st with posterior_scale := none, prior_precision := l },
                  some .valueError) := by
            simp only [kron_set_prior_precision, hbase, if_neg hk]
          refine ⟨fun h => ?_, fun l' hl' h1 h2 => ?_, fun _ => ?_⟩
          · rw [this] at h; cases h
          · rw [this]
          · exact Or.inr ⟨l, rfl, by rw [this]⟩
      · have hbase : base_set_prior_precision st (.vec l)
            = ({ st with posterior_scale := none }, some .valueError) := by
          simp only [base_set_prior_precision, if_neg hb]
        have : kron_set_prior_precision st (.vec l)
            = ({ st with posterior_scale := none }, some .valueError) := by
          simp only [kron_set_prior_precision, hbase]
        refine ⟨fun h => ?_, fun l' hl' h1 h2 => ?_, fun _ => ?_⟩
        · rw [this] at h; cases h
        · rw [this]
        · exact Or.inl (by rw [this])

/-- A non-raising per-layer assignment on a Kron instance with
`n_layers = 2`, `n_params = 5`: the stored length lands in `{1, 2}`. -/
theorem C10_kron_prior_precision_invariant_witness :
    (kron_set_prior_precision ⟨2, 5, [1], none⟩
        (.vec [3, 4])).1.prior_precision.length = 1
    ∨ (kron_set_prior_precision ⟨2, 5, [1], none⟩
        (.vec [3, 4])).1.prior_precision.length = 2 :=
  (C10_kron_prior_precision_invariant ⟨2, 5, [1], none⟩ (.vec [3, 4])).1
    (by decide)

theorem kron_fit_loop_spec {β : Type} (curv : β → ℕ → ℚ × Kron) (N : ℕ)
    (batches : List β) (s : KronState) (k : Kron) (hH : s.H = .facs k) :
    (batches.foldl (kron_fit_step curv N) s).H
        = .facs (batches.foldl (fun a b => kronAdd a (curv b N).2) k)
    ∧ (batches.foldl (kron_fit_step curv N) s).H_facs = s.H_facs
    ∧ (batches.foldl (kron_fit_step curv N) s).n_data = s.n_data
    ∧ (batches.foldl (kron_fit_step curv N) s).mean = s.mean
    ∧ (batches.foldl (kron_fit_step curv N) s).damping = s.damping := by
  induction batches generalizing s k with
  | nil => exact ⟨by simp [List.foldl_nil, hH], rfl, rfl, rfl, rfl⟩
  | cons b rest ih =>
      have hstep : (kron_fit_step curv N s b).H
          = .facs (kronAdd k (curv b N).2) := by
        simp only [kron_fit_step, hH]
      have h1 := ih (kron_fit_step curv N s b) (kronAdd k (curv b N).2) hstep
      simp only [List.foldl_cons]
      refine ⟨h1.1, ?_, ?_, ?_, ?_⟩
      · rw [h1.2.1]; rfl
      · rw [h1.2.2.1]; rfl
      · rw [h1.2.2.2.1]; rfl
      · rw [h1.2.2.2.2]; rfl

/-- C5: on a `KronLaplace` previously fitted on `n_old` examples
(`H_facs = some K_old`, `n_data = n_old`), `fit` with `override=False` on a
loader of `n_new` examples leaves the factor accumulator `H_facs` equal to
the previous factors rescaled by `n_old/(n_old+n_new)` plus the newly
computed factors (the batch curvatures summed onto the re-initialised
accumulator) rescaled by `n_new/(n_old+n_new)`, and sets the working
representation `H` to the eigendecomposition of this weighted sum. -/
theorem C5_kron_fit_online_rescaling {β : Type} (init_H : Kron)
    (curv : β → ℕ → ℚ × Kron) (params_vec : List ℚ) (loader : Loader β)
    (st : KronState) (K_old : Kron) (hfacs : st.H_facs = some K_old) :
    (kron_fit init_H curv params_vec loader false st).H_facs
        = some (kronAdd
            (rescale_factors K_old
              ((st.n_data : ℚ) / ((st.n_data : ℚ) + (loader.dataset_size : ℚ))))
            (rescale_factors
              (loader.batches.foldl
                (fun a b => kronAdd a (curv b loader.dataset_size).2) init_H)
              ((loader.dataset_size : ℚ)
                / ((st.n_data : ℚ) + (loader.dataset_size : ℚ)))))
    ∧ (kron_fit init_H curv params_vec loader false st).H
        = .dec (kronDecompose
            (kronAdd
              (rescale_factors K_old
                ((st.n_data : ℚ)
                  / ((st.n_data : ℚ) + (loader.dataset_size : ℚ))))
              (rescale_factors
                (loader.batches.foldl
                  (fun a b => kronAdd a (curv b loader.dataset_size).2) init_H)
                ((loader.dataset_size : ℚ)
                  / ((st.n_data : ℚ) + (loader.dataset_size : ℚ)))))
            st.damping) := by
  have hcomm : (loader.dataset_size : ℚ)
      / ((loader.dataset_size : ℚ) + (st.n_data : ℚ))
      = (loader.dataset_size : ℚ)
      / ((st.n_data : ℚ) + (loader.dataset_size : ℚ)) := by
    rw [add_comm]
  unfold kron_fit
  simp only [Bool.false_eq_true, if_false, hfacs]
  set s1 : KronState :=
    { st with
        H := .facs init_H
        H_facs := some (rescale_factors K_old
          ((st.n_data : ℚ) / ((st.n_data : ℚ) + (loader.dataset_size : ℚ)))) }
    with hs1
  set s2 : KronState := { s1 with mean := params_vec } with hs2
  have hH2 : s2.H = .facs init_H := by rw [hs2, hs1]
  have hloop := kron_fit_loop_spec curv loader.dataset_size loader.batches
    s2 init_H hH2
  set s3 := loader.batches.foldl (kron_fit_step curv loader.dataset_size) s2
    with hs3
  have hfacs3 : s3.H_facs = some (rescale_factors K_old
      ((st.n_data : ℚ) / ((st.n_data : ℚ) + (loader.dataset_size : ℚ)))) := by
    rw [hloop.2.1, hs2, hs1]
  have hH3 : s3.H = .facs (loader.batches.foldl
      (fun a b => kronAdd a (curv b loader.dataset_size).2) init_H) :=
    hloop.1
  have hdamp3 : s3.damping = st.damping := by
    rw [hloop.2.2.2.2, hs2, hs1]
  simp only [hfacs3, hH3, hdamp3, hcomm]
  constructor <;> trivial

/-- Concrete instantiation of the online-fit theorem: a single group with a
two-factor Kronecker pair, one old example and one new batch of one
example. -/
theorem C5_kron_fit_online_rescaling_witness :
    (kron_fit (⟨[[[[0]], [[0]]]]⟩ : Kron)
        (fun _ _ => (1, (⟨[[[[2]], [[2]]]]⟩ : Kron))) [5]
        (⟨[()], 1⟩ : Loader Unit) false
        ⟨.facs ⟨[[[[0]], [[0]]]]⟩, some ⟨[[[[4]], [[4]]]]⟩, 0, 1, [0],
          false⟩).H_facs
      = some (kronAdd
          (rescale_factors ⟨[[[[4]], [[4]]]]⟩ ((1 : ℚ) / (1 + 1)))
          (rescale_factors
            (kronAdd ⟨[[[[0]], [[0]]]]⟩ ⟨[[[[2]], [[2]]]]⟩)
            ((1 : ℚ) / (1 + 1)))) := by
  have h := C5_kron_fit_online_rescaling (β := Unit) ⟨[[[[0]], [[0]]]]⟩
    (fun _ _ => (1, ⟨[[[[2]], [[2]]]]⟩)) [5] ⟨[()], 1⟩
    ⟨.facs ⟨[[[[0]], [[0]]]]⟩, some ⟨[[[[4]], [[4]]]]⟩, 0, 1, [0], false⟩
    ⟨[[[[4]], [[4]]]]⟩ rfl
  simpa using h.1

theorem logspace_length (tenPow : ℚ → ℚ) (a b : ℚ) (steps : ℕ) :
    (logspace tenPow a b steps).length = steps := by
  unfold logspace
  rw [List.length_map, List.length_range]

theorem logspace_getD (tenPow : ℚ → ℚ) (a b : ℚ) (steps i : ℕ)
    (h : i < steps) :
    (logspace tenPow a b steps).getD i 0
      = tenPow (a + (i : ℚ) * (b - a) / ((steps : ℚ) - 1)) := by
  unfold logspace
  have hlen : i < ((List.range steps).map fun j : ℕ =>
      tenPow (a + (j : ℚ) * (b - a) / ((steps : ℚ) - 1))).length := by
    rw [List.length_map, List.length_range]
    exact h
  rw [List.getD_eq_getElem _ _ hlen, List.getElem_map, List.getElem_range]

theorem select_min_spec (l : List (ℚ × WithTop ℚ)) (x : ℚ × WithTop ℚ) :
    select_min x l ∈ x :: l ∧ (select_min x l).2 ≤ x.2
    ∧ ∀ y ∈ l, (select_min x l).2 ≤ y.2 := by
  induction l generalizing x with
  | nil =>
      refine ⟨List.mem_singleton.mpr rfl, le_refl _, ?_⟩
      intro y hy
      cases hy
  | cons y t ih =>
      have hstep : select_min x (y :: t)
          = select_min (if y.2 < x.2 then y else x) t := rfl
      by_cases hc : y.2 < x.2
      · have h := ih y
        rw [hstep, if_pos hc]
        refine ⟨?_, ?_, ?_⟩
        · rcases List.mem_cons.mp h.1 with hm | hm
          · exact List.mem_cons_of_mem x (by simp [hm])
          · exact List.mem_cons_of_mem x (List.mem_cons_of_mem y hm)
        · exact le_trans h.2.1 (le_of_lt hc)
        · intro z hz
          rcases List.mem_cons.mp hz with hz | hz
          · subst hz; exact h.2.1
          · exact h.2.2 z hz
      · have h := ih x
        rw [hstep, if_neg hc]
        refine ⟨?_, h.2.1, ?_⟩
        · rcases List.mem_cons.mp h.1 with hm | hm
          · exact by simp [hm]
          · exact List.mem_cons_of_mem x (List.mem_cons_of_mem y hm)
        · intro z hz
          rcases List.mem_cons.mp hz with hz | hz
          · subst hz; exact le_trans h.2.1 (le_of_not_lt hc)
          · exact h.2.2 z hz

theorem gridsearch_results_ok (validate : ValidateFn) :
    ∀ (l : List ℚ) (rs : List (WithTop ℚ)),
      gridsearch_results validate l = .ok rs →
      rs = l.map (recorded_loss validate) := by
  intro l
  induction l with
  | nil =>
      intro rs h
      simp only [gridsearch_results] at h
      cases h
      rfl
  | cons p t ih =>
      intro rs h
      simp only [gridsearch_results] at h
      cases hs : grid_point_score validate p with
      | error e => rw [hs] at h; cases h
      | ok r =>
          rw [hs] at h
          cases ht : gridsearch_results validate t with
          | error e => rw [ht] at h; cases h
          | ok rs2 =>
              rw [ht] at h
              cases h
              have hr : r = recorded_loss validate p := by
                unfold grid_point_score at hs
                unfold recorded_loss
                cases hv : validate p with
                | ok q => rw [hv] at hs; cases hs; rfl
                | error e =>
                    rw [hv] at hs
                    cases e <;> (cases hs; try rfl)
              rw [List.map_cons, ← ih rs2 ht, hr]

theorem zip_self_map {α β : Type} (g : α → β) :
    ∀ l : List α, l.zip (l.map g) = l.map fun a => (a, g a) := by
  intro l
  induction l with
  | nil => rfl
  | cons a t ih => simp [List.zip_cons_cons, ih]

/-- C3: with a validation loader present and `grid_size ≥ 2`, the
gridsearch method evaluates a log-spaced grid of exactly `grid_size` points
whose first and last entries are `10^log_prior_prec_min` and
`10^log_prior_prec_max`; a `RuntimeError` during validation of a grid point
is caught and scored as infinite loss rather than propagated; and on
success the stored prior precision is a grid value whose recorded
validation loss is ≤ the recorded loss of every other grid point. -/
theorem C3_gridsearch_optimizes (tenPow : ℚ → ℚ) (validate : ValidateFn)
    (a b : ℚ) (n : ℕ) (hn : 2 ≤ n) :
    (logspace tenPow a b n).length = n
    ∧ (logspace tenPow a b n).getD 0 0 = tenPow a
    ∧ (logspace tenPow a b n).getD (n - 1) 0 = tenPow b
    ∧ (∀ p, validate p = .error .runtimeError →
        grid_point_score validate p = .ok ⊤)
    ∧ (∀ pp : List ℚ,
        optimize_prior_precision_gridsearch tenPow validate a b n true
          = .ok pp →
        ∃ q, pp = [q] ∧ q ∈ logspace tenPow a b n
          ∧ ∀ p ∈ logspace tenPow a b n,
              recorded_loss validate q ≤ recorded_loss validate p) := by
  have hpos : 0 < n := lt_of_lt_of_le (by norm_num) hn
  refine ⟨logspace_length tenPow a b n, ?_, ?_, ?_, ?_⟩
  · rw [logspace_getD tenPow a b n 0 hpos]
    norm_num
  · rw [logspace_getD tenPow a b n (n - 1) (by omega)]
    have hne : ((n : ℚ) - 1) ≠ 0 := by
      have h2 : (2 : ℚ) ≤ (n : ℚ) := by exact_mod_cast hn
      intro hz
      nlinarith
    have hcast : ((n - 1 : ℕ) : ℚ) = (n : ℚ) - 1 := by
      have h1 : (1 : ℕ) ≤ n := by omega
      push_cast [Nat.cast_sub h1]
      ring
    have harg : a + ((n : ℚ) - 1) * (b - a) / ((n : ℚ) - 1) = b := by
      field_simp
    rw [hcast, harg]
  · intro p hp
    unfold grid_point_score
    rw [hp]
  · intro pp hpp
    unfold optimize_prior_precision_gridsearch at hpp
    simp only [Bool.not_true, Bool.false_eq_true, if_false] at hpp
    split at hpp
    · cases hpp
    · rename_i q hg
      cases hpp
      refine ⟨q, rfl, ?_⟩
      unfold gridsearch at hg
      split at hg
      · cases hg
      · rename_i results hres
        have hmap := gridsearch_results_ok validate _ _ hres
        subst hmap
        rw [zip_self_map (recorded_loss validate)] at hg
        split at hg
        · cases hg
        · rename_i x rest hz
          cases hg
          have hsm := select_min_spec rest x
          have hbmem : select_min x rest
              ∈ (logspace tenPow a b n).map
                  fun p => (p, recorded_loss validate p) := by
            rw [hz]
            exact hsm.1
          rcases List.mem_map.mp hbmem with ⟨pb, hpbmem, hpb⟩
          have hfst : (select_min x rest).1 = pb := by rw [← hpb]
          have hsnd : (select_min x rest).2
              = recorded_loss validate (select_min x rest).1 := by
            rw [← hpb]
          constructor
          · rw [hfst]
            exact hpbmem
          · intro p hpmem
            rw [← hsnd]
            have hp2 : (p, recorded_loss validate p)
                ∈ (logspace tenPow a b n).map
                    fun p => (p, recorded_loss validate p) :=
              List.mem_map.mpr ⟨p, hpmem, rfl⟩
            rw [hz] at hp2
            rcases List.mem_cons.mp hp2 with hp0 | hrest
            · have hx2 : x.2 = recorded_loss validate p := by rw [← hp0]
              rw [← hx2]
              exact hsm.2.1
            · exact hsm.2.2 _ hrest

/-- Concrete run of the gridsearch pipeline: two grid points, the first
failing with a `RuntimeError` (scored `∞`), the second with loss `3`; the
selected prior precision is the surviving grid value. -/
theorem C3_gridsearch_optimizes_witness :
    ∃ q, [(3 : ℚ)] = [q] ∧ q ∈ logspace (fun e => e + 2) 0 1 2
      ∧ ∀ p ∈ logspace (fun e => e + 2) 0 1 2,
          recorded_loss (fun p => if p = 2 then .error .runtimeError
            else .ok 3) q
            ≤ recorded_loss (fun p => if p = 2 then .error .runtimeError
                else .ok 3) p :=
  (C3_gridsearch_optimizes (fun e => e + 2)
      (fun p => if p = 2 then .error .runtimeError else .ok 3)
      0 1 2 (by norm_num)).2.2.2.2 [(3 : ℚ)] (by
        norm_num [optimize_prior_precision_gridsearch, gridsearch,
          gridsearch_results, grid_point_score, logspace, select_min,
          recorded_loss, List.range_succ]
        have h3 : (3 : WithTop ℚ) < ⊤ := by
          exact_mod_cast WithTop.coe_lt_top (3 : ℚ)
        rw [if_pos h3])

theorem marglik_value_eq_spec (rlog : ℚ → ℚ) (sqrt2pi : ℚ)
    (ldp : PLState → ℚ) (st : PLState) :
    spec_log_marginal_likelihood rlog sqrt2pi ldp st
      = marglik_value rlog sqrt2pi ldp st := by
  unfold spec_log_marginal_likelihood marglik_value log_det_ratio
    log_det_prior_precision scatter log_likelihood H_factor
  cases hd : prior_precision_diag st with
  | error e => rfl
  | ok d =>
      cases st.likelihood <;>
        · show Except.ok _ = Except.ok _
          congr 1
          ring

theorem update_prior_precision_arg_spec (st st' : PLState)
    (pp : Option TensorArg)
    (h : update_prior_precision_arg st pp = .ok st') :
    st'.sigma_noise = st.sigma_noise ∧ st'.mean = st.mean
    ∧ st'.loss = st.loss ∧ st'.n_data = st.n_data
    ∧ st'.n_outputs = st.n_outputs ∧ st'.temperature = st.temperature
    ∧ st'.likelihood = st.likelihood
    ∧ (pp = none → st'.prior_precision = st.prior_precision)
    ∧ (∀ a, pp = some a →
        normalize_prior_precision st.n_layers st.n_params a
          = .ok st'.prior_precision) := by
  cases pp with
  | none =>
      simp only [update_prior_precision_arg] at h
      cases h
      exact ⟨rfl, rfl, rfl, rfl, rfl, rfl, rfl, fun _ => rfl,
        fun a ha => by cases ha⟩
  | some a =>
      simp only [update_prior_precision_arg] at h
      split at h
      · cases h
      · rename_i v hv
        cases h
        refine ⟨rfl, rfl, rfl, rfl, rfl, rfl, rfl, ?_, ?_⟩
        · intro hn
          cases hn
        · intro b hb
          cases hb
          rw [hv]

theorem update_sigma_noise_arg_spec (st st' : PLState)
    (sn : Option TensorArg)
    (h : update_sigma_noise_arg st sn = .ok st') :
    st'.prior_precision = st.prior_precision ∧ st'.mean = st.mean
    ∧ st'.loss = st.loss ∧ st'.n_data = st.n_data
    ∧ st'.n_outputs = st.n_outputs ∧ st'.temperature = st.temperature
    ∧ st'.likelihood = st.likelihood
    ∧ (sn = none → st'.sigma_noise = st.sigma_noise)
    ∧ (∀ a, sn = some a → st.likelihood = Likelihood.regression
        ∧ normalize_sigma_noise a = .ok st'.sigma_noise) := by
  cases sn with
  | none =>
      simp only [update_sigma_noise_arg] at h
      cases h
      exact ⟨rfl, rfl, rfl, rfl, rfl, rfl, rfl, fun _ => rfl,
        fun a ha => by cases ha⟩
  | some a =>
      simp only [update_sigma_noise_arg] at h
      split at h
      · cases h
      · rename_i hlik
        split at h
        · cases h
        · rename_i s hs
          cases h
          refine ⟨rfl, rfl, rfl, rfl, rfl, rfl, rfl, ?_, ?_⟩
          · intro hn
            cases hn
          · intro b hb
            cases hb
            exact ⟨not_ne_iff.mp hlik, by rw [hs]⟩

/-- C1: whenever `log_marginal_likelihood(prior_precision, sigma_noise)`
returns a value, that value is exactly the spec formula — `log_likelihood`
minus one half of `(log_det_ratio + scatter)`, with
`H_factor = 1/(sigma_noise^2 * temperature)`, the regression-only Gaussian
normalizer, and the scatter quadratic form — evaluated on the updated
state; and when the optional arguments are passed, the stored
`prior_precision` / `sigma_noise` are first overwritten through their
setters (the latter only in regression), all other fields unchanged. -/
theorem C1_log_marginal_likelihood_spec (rlog : ℚ → ℚ) (sqrt2pi : ℚ)
    (ldp : PLState → ℚ) (st : PLState)
    (prior_precision sigma_noise : Option TensorArg)
    (st2 : PLState) (v : ℚ)
    (h : log_marginal_likelihood rlog sqrt2pi ldp st prior_precision
      sigma_noise = .ok (st2, v)) :
    spec_log_marginal_likelihood rlog sqrt2pi ldp st2 = .ok v
    ∧ (prior_precision = none →
        st2.prior_precision = st.prior_precision)
    ∧ (∀ a, prior_precision = some a →
        normalize_prior_precision st.n_layers st.n_params a
          = .ok st2.prior_precision)
    ∧ (sigma_noise = none → st2.sigma_noise = st.sigma_noise)
    ∧ (∀ a, sigma_noise = some a → st.likelihood = Likelihood.regression
        ∧ normalize_sigma_noise a = .ok st2.sigma_noise)
    ∧ st2.mean = st.mean ∧ st2.loss = st.loss ∧ st2.n_data = st.n_data
    ∧ st2.n_outputs = st.n_outputs ∧ st2.temperature = st.temperature
    ∧ st2.likelihood = st.likelihood := by
  unfold log_marginal_likelihood at h
  split at h
  · cases h
  · rename_i st1 h1
    split at h
    · cases h
    · rename_i st2m h2
      split at h
      · cases h
      · rename_i vm0 hv
        cases h
        obtain ⟨us, um, ul, und, uno, ut, ulik, upn, ups⟩ :=
          update_prior_precision_arg_spec st st1 prior_precision h1
        obtain ⟨vpp, vm, vl, vnd, vno, vt, vlik, vsn, vss⟩ :=
          update_sigma_noise_arg_spec st1 st2 sigma_noise h2
        refine ⟨?_, ?_, ?_, ?_, ?_, ?_, ?_, ?_, ?_, ?_, ?_⟩
        · rw [marglik_value_eq_spec]
          exact hv
        · intro hn
          rw [vpp, upn hn]
        · intro a ha
          rw [vpp]
          exact ups a ha
        · intro hn
          rw [vsn hn, us]
        · intro a ha
          have hh := vss a ha
          exact ⟨by rw [← ulik]; exact hh.1, hh.2⟩
        · rw [vm, um]
        · rw [vl, ul]
        · rw [vnd, und]
        · rw [vno, uno]
        · rw [vt, ut]
        · rw [vlik, ulik]

/-- A concrete fitted regression state: both optional arguments are passed
and the returned value matches the spec formula on the updated state. -/
theorem C1_log_marginal_likelihood_spec_witness :
    spec_log_marginal_likelihood (fun _ => 0) 1 (fun _ => 0)
      ⟨.regression, 1, 1, 0, 1, 1, 2, 1, [2], [1], [0], [0, 0], false⟩
      = .ok 0 :=
  (C1_log_marginal_likelihood_spec (fun _ => 0) 1 (fun _ => 0)
      ⟨.regression, 1, 1, 0, 1, 1, 2, 1, [2], [1], [0], [0, 0], false⟩
      (some (.scalar 1)) (some (.scalar 1))
      ⟨.regression, 1, 1, 0, 1, 1, 2, 1, [2], [1], [0], [0, 0], false⟩ 0
      (by
        norm_num [log_marginal_likelihood, update_prior_precision_arg,
          update_sigma_noise_arg, normalize_prior_precision,
          normalize_sigma_noise, marglik_value, log_det_ratio,
          log_det_prior_precision, scatter, prior_precision_diag,
          log_likelihood, H_factor, bsub, dot, List.replicate,
          List.zipWith, List.sum_cons, List.sum_nil, List.map_cons,
          List.map_nil])).1

/-- C2: on a `FullLaplace` whose curvature accumulator is uninitialized
(`H is None`, as `_check_H_init` tests; the scale cache is then necessarily
unset too), accessing `posterior_precision`, drawing posterior samples, and
exporting state via `state_dict()` each raise an `AttributeError`
(`'Laplace not fitted. Run fit() first.'`) instead of returning a value. -/
theorem C2_unfitted_precondition_errors (st : FullState)
    (invsqrt : List (List ℚ) → List (List ℚ)) (noise : List (List ℚ))
    (hH : st.H = none) (hcache : st.posterior_scale_cache = none) :
    full_posterior_precision st = .error .attributeError
    ∧ full_sample invsqrt noise st = .error .attributeError
    ∧ full_state_dict st = .error .attributeError := by
  have hpp : full_posterior_precision st = .error .attributeError := by
    unfold full_posterior_precision
    rw [hH]
  refine ⟨hpp, ?_, ?_⟩
  · unfold full_sample full_posterior_scale
    rw [hcache, hpp]
  · unfold full_state_dict
    rw [hH]

/-- A freshly constructed (never fitted) `FullLaplace` with `H = None`:
all three operations raise. -/
theorem C2_unfitted_precondition_errors_witness :
    full_posterior_precision
        ⟨⟨.classification, 1, 1, 0, 0, 0, 0, 0, [], [], [], [], false⟩,
          none, none⟩
      = .error .attributeError
    ∧ full_sample (fun m => m) []
        ⟨⟨.classification, 1, 1, 0, 0, 0, 0, 0, [], [], [], [], false⟩,
          none, none⟩
      = .error .attributeError
    ∧ full_state_dict
        ⟨⟨.classification, 1, 1, 0, 0, 0, 0, 0, [], [], [], [], false⟩,
          none, none⟩
      = .error .attributeError :=
  C2_unfitted_precondition_errors _ (fun m => m) [] rfl rfl

/-- C4 counterexample: `load_state_dict` raises a `ValueError` on a state
mapping for which the type tag, the MAP length and the likelihood all
match — the stored prior precision has an invalid length and the
`prior_precision` setter raises during the copy phase.  Hence the hard
error is not raised *exactly when* one of the three mismatches holds. -/
theorem C4_load_state_dict_counterexample :
    (load_state_dict c4_self c4_sd).2.2 = some PyErr.valueError
    ∧ ¬(c4_self.cls_name ≠ c4_sd.cls_name
        ∨ c4_sd.mean.length ≠ c4_self.st.n_params
        ∨ c4_self.st.likelihood ≠ c4_sd.likelihood) := by
  decide

/-- C4 (amended): `load_state_dict` raises a hard error exactly when the
class tag differs, or the stored MAP length differs from `n_params`, or the
likelihood differs, or one of the stored `prior_mean` / `prior_precision` /
`sigma_noise` fields fails its property setter's shape validation during
the copy phase; a mismatched temperature or backprop flag alone only emits
a warning, and a non-raising load copies every stored field into the
instance. -/
theorem C4_load_state_dict_validation {α : Type} (self : LapSelf α)
    (sd : LapStateDict α) :
    ((load_state_dict self sd).2.2 = none ↔
      (self.cls_name = sd.cls_name
        ∧ sd.mean.length = self.st.n_params
        ∧ self.st.likelihood = sd.likelihood
        ∧ (∃ pm, normalize_prior_mean self.st.n_params sd.prior_mean
            = .ok pm)
        ∧ (∃ pv, normalize_prior_precision self.st.n_layers self.st.n_params
            sd.prior_precision = .ok pv)
        ∧ (∃ sv, normalize_sigma_noise sd.sigma_noise = .ok sv)))
    ∧ ((load_state_dict self sd).2.2 = none →
        ((load_state_dict self sd).1.st.mean = sd.mean
          ∧ (load_state_dict self sd).1.H = some sd.H
          ∧ (load_state_dict self sd).1.st.loss = sd.loss
          ∧ normalize_prior_mean self.st.n_params sd.prior_mean
              = .ok (load_state_dict self sd).1.st.prior_mean
          ∧ normalize_prior_precision self.st.n_layers self.st.n_params
              sd.prior_precision
              = .ok (load_state_dict self sd).1.st.prior_precision
          ∧ normalize_sigma_noise sd.sigma_noise
              = .ok (load_state_dict self sd).1.st.sigma_noise
          ∧ (load_state_dict self sd).1.st.n_data = sd.n_data
          ∧ (load_state_dict self sd).1.st.n_outputs = sd.n_outputs
          ∧ (load_state_dict self sd).1.st.likelihood = sd.likelihood
          ∧ (load_state_dict self sd).1.st.temperature = sd.temperature
          ∧ (load_state_dict self sd).1.st.enable_backprop
              = sd.enable_backprop
          ∧ (load_state_dict self sd).2.1
              = load_warnings self.st.temperature sd.temperature
                  self.st.enable_backprop sd.enable_backprop)) := by
  by_cases h1 : self.cls_name ≠ sd.cls_name
  · constructor
    · simp [load_state_dict, h1]
    · intro hco
      simp [load_state_dict, h1] at hco
  · have h1' : self.cls_name = sd.cls_name := not_ne_iff.mp h1
    by_cases h2 : sd.mean.length ≠ self.st.n_params
    · constructor
      · simp [load_state_dict, h1, h2]
      · intro hco
        simp [load_state_dict, h1, h2] at hco
    · have h2' : sd.mean.length = self.st.n_params := not_ne_iff.mp h2
      by_cases h3 : self.st.likelihood ≠ sd.likelihood
      · constructor
        · simp [load_state_dict, h1, h3]
        · intro hco
          simp [load_state_dict, h1, h3] at hco
      · have h3' : self.st.likelihood = sd.likelihood := not_ne_iff.mp h3
        cases hpm : normalize_prior_mean self.st.n_params sd.prior_mean with
        | error e =>
            constructor
            · simp [load_state_dict, h1, h2, h3, hpm]
            · intro hco
              simp [load_state_dict, h1, h2, h3, hpm] at hco
        | ok pm =>
            cases hpv : normalize_prior_precision self.st.n_layers
                self.st.n_params sd.prior_precision with
            | error e =>
                constructor
                · simp [load_state_dict, h1, h2, h3, hpm, hpv]
                · intro hco
                  simp [load_state_dict, h1, h2, h3, hpm, hpv] at hco
            | ok pv =>
                cases hsv : normalize_sigma_noise sd.sigma_noise with
                | error e =>
                    constructor
                    · simp [load_state_dict, h1, h2, h3, hpm, hpv, hsv]
                    · intro hco
                      simp [load_state_dict, h1, h2, h3, hpm, hpv, hsv]
                        at hco
                | ok sv =>
                    constructor
                    · simp [load_state_dict, h1, h2, h3, h1', h2', h3',
                        hpm, hpv, hsv]
                    · intro _
                      simp [load_state_dict, h1, h2, h3, hpm, hpv, hsv]

/-- A successful load with mismatched temperature and backprop flag: the
stored accumulator is copied into the instance. -/
theorem C4_load_state_dict_validation_witness :
    (load_state_dict
        (⟨"DiagLaplace",
          ⟨.classification, 1, 1, 0, 0, 0, 2, 1, [2], [1], [0], [0, 0],
            false⟩, none⟩ : LapSelf ℕ)
        ⟨[1, 1], 7, 2, .scalar 0, .vec [4], .scalar 1, 9, 3,
          .classification, 2, true, "DiagLaplace"⟩).1.H = some 7 :=
  ((C4_load_state_dict_validation
      (⟨"DiagLaplace",
        ⟨.classification, 1, 1, 0, 0, 0, 2, 1, [2], [1], [0], [0, 0],
          false⟩, none⟩ : LapSelf ℕ)
      ⟨[1, 1], 7, 2, .scalar 0, .vec [4], .scalar 1, 9, 3,
        .classification, 2, true, "DiagLaplace"⟩).2 (by decide)).2.1

end LaplaceProof
